import Mathlib

/-!
Verification development for the gopkgbuild package (Arch PKGBUILD/SRCINFO
parsing, version ordering and dependency constraints).

The Go sources are embedded shallowly:

* strings become `List Char` (inputs of interest are ASCII; where Go indexes
  bytes the embedding indexes characters, which coincides on ASCII input, and
  the `uint8(r)` truncations in the character predicates are likewise the
  identity on ASCII);
* the package record `PKGBUILD`, the version structures and the dependency
  structure are Lean structures mirroring the Go structs field by field;
* fallible functions return `Except`-like result types; a Go runtime panic
  (nil-pointer dereference, index out of range) is a distinguished result
  constructor, and a blocking read from the exhausted token channel is the
  distinguished `blocked` result;
* the channel-driven lexer (lex.go) is a small-step state machine: one
  `lexStep` performs one iteration of the running state function's loop, and
  `lexRun` iterates it on fuel, returning the items emitted so far.  A Go
  infinite loop is then a fixed point of `lexStep` that is not a halted state.

Functions of this repository that its sources reference but do not contain
(version.go: `rpmvercmp`, `Version.bigger`, the comparison helpers `isDigit`
and `isAlphaNumeric`, and the `Equal` outcome of the composite order) are
modelled from the specification's words; their doc comments say so.
-/

/-! ## Character predicates (pkgbuild.go) -/

/-- Modelled from the spec: `isDigit` lives in the missing version.go; the
spec's decomposition step separates "maximal digit-runs". ASCII digits. -/
def isDigit (c : Char) : Bool := '0' ≤ c && c ≤ '9'

/-- Modelled from the spec: `isAlphaNumeric` lives in the missing version.go;
the Version validity rule says "first character is alphanumeric". -/
def isAlphaNumeric (c : Char) : Bool := c.isAlpha || isDigit c

/-- pkgbuild.go `isLowerAlpha`. -/
def isLowerAlpha (c : Char) : Bool := 'a' ≤ c && c ≤ 'z'

/-- pkgbuild.go `isValidPkgnameChar`. -/
def isValidPkgnameChar (c : Char) : Bool :=
  isLowerAlpha c || isDigit c || c = '@' || c = '.' || c = '_' || c = '+' || c = '-'

/-- pkgbuild.go `isValidPkgverChar`. -/
def isValidPkgverChar (c : Char) : Bool :=
  isAlphaNumeric c || c = '_' || c = '+' || c = '.'

/-- lex.go `isAlphaNumericUnderscore` (unicode letters restricted to the
ASCII range relevant to the claims). -/
def isAlphaNumericUnderscore (c : Char) : Bool :=
  c = '_' || c.isAlpha || isDigit c

/-- pkgbuild.go `validPkgname`: nonempty, no leading '-', and every
character from the pkgname charset. -/
def validPkgname (name : List Char) : Bool :=
  match name with
  | [] => false
  | c :: _ =>
    if c = '-' then false
    else name.all isValidPkgnameChar

/-- pkgbuild.go `validPkgver`: nonempty, alphanumeric first character, then
pkgver charset characters. -/
def validPkgver (version : List Char) : Bool :=
  match version with
  | [] => false
  | c :: rest => isAlphaNumeric c && rest.all isValidPkgverChar

/-! ## Go library helpers -/

/-- The digits part of Go `strconv.Atoi`: nonempty all-digit run to a Nat. -/
def digitsVal (s : List Char) : Option Nat :=
  if s = [] then none
  else if s.all isDigit then
    some (s.foldl (fun a c => a * 10 + (c.toNat - '0'.toNat)) 0)
  else none

/-- Go `strconv.Atoi` / `strconv.ParseInt(s, 10, 0)` (overflow ignored;
all inputs of interest are tiny). -/
def goAtoi (s : List Char) : Option Int :=
  match s with
  | '-' :: rest => (digitsVal rest).map (fun n => -(n : Int))
  | '+' :: rest => (digitsVal rest).map (fun n => (n : Int))
  | _ => (digitsVal s).map (fun n => (n : Int))

/-- Go `strings.Split(s, sep)` for a one-character separator: splitting an
empty string yields `[[]]`, and separators delimit possibly-empty fields. -/
def goSplit (s : List Char) (sep : Char) : List (List Char) :=
  match s with
  | [] => [[]]
  | c :: rest =>
    match goSplit rest sep with
    | [] => [[]]
    | f :: fs => if c = sep then [] :: f :: fs else (c :: f) :: fs

/-! ## Version model, modelled from the spec (version.go is absent) -/

/-- `type Version string` (pkgbuild.go). -/
abbrev Version := List Char

/-- An alphabetic (non-digit alphanumeric) character, the content of a
non-digit segment. -/
def isAlphaSeg (c : Char) : Bool := isAlphaNumeric c && !isDigit c

/-- Modelled from the spec: decomposition of a version string into an
alternating sequence of maximal digit-runs and maximal non-digit runs, in
left-to-right order (spec 4.3 step 1).  Separator characters (anything
non-alphanumeric) "never contribute to ordering, only to segmentation":
they delimit the runs and are discarded.  A character extends the run in
front of it exactly when the next character is alphanumeric of the same
kind. -/
def segments : List Char → List (List Char)
  | [] => []
  | c :: cs =>
    if !isAlphaNumeric c then segments cs
    else
      match cs with
      | [] => [[c]]
      | d :: _ =>
        if isAlphaNumeric d && (isDigit c = isDigit d) then
          match segments cs with
          | [] => [[c]]
          | seg :: rest => (c :: seg) :: rest
        else [c] :: segments cs

/-- Modelled from the spec: the code-point-by-code-point comparison of two
non-digit runs ("shorter is less if it is a strict prefix", spec 4.3 step
3); `alphaCompare` in the missing version.go. -/
def alphaCompare : List Char → List Char → Ordering
  | [], [] => .eq
  | [], _ => .lt
  | _, [] => .gt
  | a :: as', b :: bs' =>
    if a < b then .lt else if b < a then .gt else alphaCompare as' bs'

/-- Modelled from the spec: one pairwise segment comparison (spec 4.3 step
3): digit-runs numerically with leading zeros stripped, non-digit runs code
point by code point, and a digit-run beats a non-digit run. -/
def cmpSeg (a b : List Char) : Ordering :=
  if a.all isDigit then
    if b.all isDigit then
      compare ((digitsVal a).getD 0) ((digitsVal b).getD 0)
    else .gt
  else
    if b.all isDigit then .lt
    else alphaCompare a b

/-- Modelled from the spec: the pairwise walk of the two segment sequences
(spec 4.3 steps 2 and 4): the first non-equal pair decides; a side exhausted
of segments loses to a side with a non-empty segment remaining (a remainder
made of separators only contributes no segment, hence compares equal). -/
def cmpSegs : List (List Char) → List (List Char) → Ordering
  | [], [] => .eq
  | [], _ :: _ => .lt
  | _ :: _, [] => .gt
  | a :: as', b :: bs' =>
    match cmpSeg a b with
    | .eq => cmpSegs as' bs'
    | o => o

/-- Modelled from the spec: `rpmvercmp` of the missing version.go, spec 4.3
steps 1-4. -/
def rpmvercmp (a b : List Char) : Ordering :=
  cmpSegs (segments a) (segments b)

/-- Modelled from the spec: `Version.bigger` of the missing version.go —
strictly greater in the spec 4.3 order. -/
def Version.bigger (v v2 : Version) : Bool := rpmvercmp v v2 = .gt

/-! ## Package record and its ordering (pkgbuild.go) -/

/-- pkgbuild.go `Arch`: the six declared architecture constants. -/
inductive Arch where
  | Any | I686 | X8664 | ARMv5 | ARMv6h | ARMv7h
deriving DecidableEq, Repr

/-- pkgbuild.go `archs`: the literal-to-constant lookup table. It contains
four entries; the declared constants `ARMv5` and `ARMv6h` have no entry. -/
def archs (s : List Char) : Option Arch :=
  if s = "any".toList then some .Any
  else if s = "i686".toList then some .I686
  else if s = "x86_64".toList then some .X8664
  else if s = "armv7h".toList then some .ARMv7h
  else none

/-- pkgbuild.go `CompleteVersion` as used by `parseCompleteVersion`:
epoch and pkgrel are parsed with `strconv.Atoi`, hence integers. -/
structure CompleteVersion where
  Version : Version
  Epoch : Int
  Pkgrel : Int
deriving DecidableEq, Repr

/-- pkgbuild.go `Dependency`. -/
structure Dependency where
  Name : List Char
  MinVer : Option CompleteVersion
  sgt : Bool
  MaxVer : Option CompleteVersion
  slt : Bool
deriving DecidableEq, Repr

/-- pkgbuild.go `PKGBUILD` (the SRCINFO-based record with a `Pkgnames`
list). -/
structure PKGBUILD where
  Pkgnames : List (List Char)
  Pkgver : Version
  Pkgrel : Int
  Pkgdir : List Char
  Epoch : Int
  Pkgbase : List Char
  Pkgdesc : List Char
  Arch : List Arch
  URL : List Char
  License : List (List Char)
  Groups : List (List Char)
  Depends : List Dependency
  Optdepends : List (List Char)
  Makedepends : List (List Char)
  Checkdepends : List (List Char)
  Provides : List (List Char)
  Conflicts : List (List Char)
  Replaces : List (List Char)
  Backup : List (List Char)
  Options : List (List Char)
  Install : List Char
  Changelog : List Char
  Source : List (List Char)
  Noextract : List (List Char)
  Md5sums : List (List Char)
  Sha1sums : List (List Char)
  Sha224sums : List (List Char)
  Sha256sums : List (List Char)
  Sha384sums : List (List Char)
  Sha512sums : List (List Char)
  Validpgpkeys : List (List Char)
deriving DecidableEq, Repr

/-- The zero value of the Go struct (`&PKGBUILD{}`). -/
def emptyPKGBUILD : PKGBUILD :=
  { Pkgnames := [], Pkgver := [], Pkgrel := 0, Pkgdir := [], Epoch := 0
    Pkgbase := [], Pkgdesc := [], Arch := [], URL := [], License := []
    Groups := [], Depends := [], Optdepends := [], Makedepends := []
    Checkdepends := [], Provides := [], Conflicts := [], Replaces := []
    Backup := [], Options := [], Install := [], Changelog := [], Source := []
    Noextract := [], Md5sums := [], Sha1sums := [], Sha224sums := []
    Sha256sums := [], Sha384sums := [], Sha512sums := [], Validpgpkeys := [] }

/-- pkgbuild.go `PKGBUILD.Newer`: false when p's epoch is smaller, then the
pkgver comparison, then the pkgrel comparison.  (Note: a larger epoch does
not short-circuit.) -/
def PKGBUILD.Newer (p p2 : PKGBUILD) : Bool :=
  if p.Epoch < p2.Epoch then false
  else if p.Pkgver.bigger p2.Pkgver then true
  else if p2.Pkgver.bigger p.Pkgver then false
  else p.Pkgrel > p2.Pkgrel

/-- pkgbuild.go `PKGBUILD.Older`: true when p's epoch is smaller, then the
pkgver comparison, then the pkgrel comparison. -/
def PKGBUILD.Older (p p2 : PKGBUILD) : Bool :=
  if p.Epoch < p2.Epoch then true
  else if p2.Pkgver.bigger p.Pkgver then true
  else if p.Pkgver.bigger p2.Pkgver then false
  else p.Pkgrel < p2.Pkgrel

/-- Modelled from the spec: the `Equal` outcome of the composite order
(spec 4.3: equal epoch, versions equal under the comparison algorithm, and
equal release). No `Equal` method exists in the sources. -/
def PKGBUILD.Equal (p p2 : PKGBUILD) : Bool :=
  p.Epoch = p2.Epoch && rpmvercmp p.Pkgver p2.Pkgver = .eq && p.Pkgrel = p2.Pkgrel

/-! ## Complete-version and dependency parsing (pkgbuild.go) -/

/-- pkgbuild.go `parseCompleteVersion`: split on ':' for the epoch, split
the remainder on '-' for the release; both epoch and release go through
`strconv.Atoi`. -/
def parseCompleteVersion (s : List Char) : Except (List Char) CompleteVersion :=
  let versions := goSplit s ':'
  if versions.length > 2 then .error ("invalid version format: ".toList ++ s)
  else
    let epochRes : Except (List Char) Int :=
      if versions.length > 1 then
        match goAtoi (versions.headD []) with
        | some e => .ok e
        | none => .error "strconv.Atoi: invalid syntax".toList
      else .ok 0
    match epochRes with
    | .error e => .error e
    | .ok epoch =>
      let versions2 := goSplit (versions.getLastD []) '-'
      if versions2.length > 2 then .error ("invalid version format: ".toList ++ s)
      else
        let relRes : Except (List Char) Int :=
          if versions2.length > 1 then
            match goAtoi (versions2.getD 1 []) with
            | some r => .ok r
            | none => .error "strconv.Atoi: invalid syntax".toList
          else .ok 0
        match relRes with
        | .error e => .error e
        | .ok rel =>
          if validPkgver (versions2.headD []) then
            .ok { Version := versions2.headD [], Epoch := epoch, Pkgrel := rel }
          else .error ("invalid version format: ".toList ++ s)

/-- Result of `parseDependency`: Go returns `([]*Dependency, error)`, and
`dep[0]` on an empty string panics with an index-out-of-range. -/
inductive DepResult where
  | ok (deps : List Dependency)
  | err (msg : List Char)
  | idxPanic
deriving DecidableEq, Repr

/-- The last list entry whose `Name` equals `name`, with its index
(`for _, d := range deps { if d.Name == name { dependency = d } }` keeps the
last match). -/
def lastMatch (name : List Char) : List Dependency → Option (Nat × Dependency)
  | [] => none
  | d :: rest =>
    match lastMatch name rest with
    | some (j, d') => some (j + 1, d')
    | none => if d.Name = name then some (0, d) else none

/-- pkgbuild.go `parseDependency`'s operator loop, transcribed with its
condition `c != '<' || c != '>' || c != '='` intact: the condition holds for
every character, so the first iteration increments `i` and breaks, leaving
the accumulated operator empty. -/
def eqLoop (i : Nat) : List Char → Nat × List Char
  | [] => (i, [])
  | c :: rest =>
    if c ≠ '<' || c ≠ '>' || c ≠ '=' then (i + 1, [])
    else
      match eqLoop i rest with
      | (i', eq) => (i', c :: eq)

/-- pkgbuild.go `parseDependency`'s switch on the accumulated operator. -/
def applyEq (eq : List Char) (version : CompleteVersion) (d : Dependency) : Dependency :=
  if eq = "==".toList then { d with MinVer := some version, MaxVer := some version }
  else if eq = "<=".toList then { d with MaxVer := some version }
  else if eq = ">=".toList then { d with MinVer := some version }
  else if eq = "<".toList then { d with MaxVer := some version, slt := true }
  else if eq = ">".toList then { d with MinVer := some version, sgt := true }
  else d

/-- pkgbuild.go `parseDependency`: name run, lookup-or-append, operator
loop, `parseCompleteVersion` on the rest, operator switch.  The in-place
pointer mutation is modelled by updating the list at the dependency's
index. -/
def parseDependency (dep : List Char) (deps : List Dependency) : DepResult :=
  match dep with
  | [] => .idxPanic
  | c0 :: _ =>
    if c0 = '-' then .err "invalid dependency name".toList
    else
      let i := (dep.takeWhile isValidPkgnameChar).length
      let name := dep.take i
      let found := lastMatch name deps
      let deps' :=
        match found with
        | some _ => deps
        | none => deps ++ [{ Name := name, MinVer := none, sgt := false
                             MaxVer := none, slt := false }]
      let idx :=
        match found with
        | some (j, _) => j
        | none => deps.length
      if dep.length = name.length then .ok deps'
      else
        let i1 := i + 1
        let scanned := eqLoop i1 (dep.drop i1)
        match parseCompleteVersion (dep.drop scanned.1) with
        | .error e => .err e
        | .ok version =>
          let d := deps'.getD idx { Name := name, MinVer := none, sgt := false
                                    MaxVer := none, slt := false }
          .ok (deps'.set idx (applyEq scanned.2 version d))

/-! ## Tokens (lex.go) -/

/-- lex.go `itemType`.  The first block is the token kinds declared in the
lex.go present in the sources; `itemSha224sums`, `itemValidpgpkeys` and
`itemEndSplit` are referenced by the record builder (pkgbuild.go `parse`)
but declared only in a lexer revision absent from the sources, so they are
included for the builder's sake; the present lexer never emits them. -/
inductive ItemType where
  | itemError
  | itemEOF
  | itemVariable
  | itemValue
  | itemArrayValue
  | itemArrayEnd
  | itemPkgname
  | itemPkgver
  | itemPkgrel
  | itemPkgdir
  | itemEpoch
  | itemPkgbase
  | itemPkgdesc
  | itemArch
  | itemURL
  | itemLicense
  | itemGroups
  | itemDepends
  | itemOptdepends
  | itemMakedepends
  | itemCheckdepends
  | itemProvides
  | itemConflicts
  | itemReplaces
  | itemBackup
  | itemOptions
  | itemInstall
  | itemChangelog
  | itemSource
  | itemNoextract
  | itemMd5sums
  | itemSha1sums
  | itemSha256sums
  | itemSha384sums
  | itemSha512sums
  | itemSha224sums
  | itemValidpgpkeys
  | itemEndSplit
deriving DecidableEq, Repr

/-- lex.go `item`: kind, position of the start of the emitted text, and the
emitted text. -/
structure Item where
  typ : ItemType
  pos : Nat
  val : List Char
deriving DecidableEq, Repr

/-- lex.go `variables` (renamed: `variables` is reserved in Lean): the recognized-key lookup table of the lexer in the
sources.  It has 28 entries; `sha224sums` and `validpgpkeys` are absent. -/
def variablesMap (s : List Char) : Option ItemType :=
  if s = "pkgname".toList then some .itemPkgname
  else if s = "pkgver".toList then some .itemPkgver
  else if s = "pkgrel".toList then some .itemPkgrel
  else if s = "pkgdir".toList then some .itemPkgdir
  else if s = "epoch".toList then some .itemEpoch
  else if s = "pkgbase".toList then some .itemPkgbase
  else if s = "pkgdesc".toList then some .itemPkgdesc
  else if s = "arch".toList then some .itemArch
  else if s = "url".toList then some .itemURL
  else if s = "license".toList then some .itemLicense
  else if s = "groups".toList then some .itemGroups
  else if s = "depends".toList then some .itemDepends
  else if s = "optdepends".toList then some .itemOptdepends
  else if s = "makedepends".toList then some .itemMakedepends
  else if s = "checkdepends".toList then some .itemCheckdepends
  else if s = "provides".toList then some .itemProvides
  else if s = "conflicts".toList then some .itemConflicts
  else if s = "replaces".toList then some .itemReplaces
  else if s = "backup".toList then some .itemBackup
  else if s = "options".toList then some .itemOptions
  else if s = "install".toList then some .itemInstall
  else if s = "changelog".toList then some .itemChangelog
  else if s = "source".toList then some .itemSource
  else if s = "noextract".toList then some .itemNoextract
  else if s = "md5sums".toList then some .itemMd5sums
  else if s = "sha1sums".toList then some .itemSha1sums
  else if s = "sha256sums".toList then some .itemSha256sums
  else if s = "sha384sums".toList then some .itemSha384sums
  else if s = "sha512sums".toList then some .itemSha512sums
  else none

/-! ## The lexer state machine (lex.go)

Each Go state function (`lexEnv`, `lexVariable`, ...) loops, calling
`l.next()` once per iteration.  `lexStep` performs exactly one such
iteration of the state named by `fn`; the channel send of `l.emit`/
`l.errorf` becomes the item list returned next to the successor state.
Go's `lexArray` first peeks for a space and then loops, so it appears here
as the pair `lexArrayStart` (the peek) and `lexArrayLoop` (the loop).  A
`nil` successor state (after the EOF item or an error item) is `halted`. -/

inductive StateFn where
  | lexEnv
  | lexVariable
  | lexValueType
  | lexValue
  | lexArrayValue
  | lexArrayStart
  | lexArrayLoop
  | lexNewline
  | halted
deriving DecidableEq, Repr

structure LexState where
  input : List Char
  pos : Nat
  start : Nat
  width : Nat
  fn : StateFn
deriving DecidableEq, Repr

/-- lex.go `next`: the next rune, or none at end of input (`width` 0). -/
def lexNext (s : LexState) : Option Char × LexState :=
  if s.pos ≥ s.input.length then (none, { s with width := 0 })
  else (s.input.getD s.pos ' ', { s with width := 1, pos := s.pos + 1 })

/-- lex.go `backup`. -/
def lexBackup (s : LexState) : LexState := { s with pos := s.pos - s.width }

/-- lex.go `peek`: next then backup (so `width` remains that of the peeked
rune). -/
def lexPeek (s : LexState) : Option Char × LexState :=
  let (c, s') := lexNext s
  (c, { s' with pos := s'.pos - s'.width })

/-- lex.go `ignore`. -/
def lexIgnore (s : LexState) : LexState := { s with start := s.pos }

/-- The slice `l.input[l.start:l.pos]`. -/
def lexText (s : LexState) : List Char := (s.input.drop s.start).take (s.pos - s.start)

/-- lex.go `emit`: the item `{t, l.start, l.input[l.start:l.pos]}`, then
`l.start = l.pos`. -/
def lexEmit (t : ItemType) (s : LexState) : Item × LexState :=
  (⟨t, s.start, lexText s⟩, { s with start := s.pos })

/-- One loop iteration of the running state function. -/
def lexStep (s : LexState) : LexState × List Item :=
  match s.fn with
  | .halted => (s, [])
  | .lexEnv =>
    let (r, s1) := lexNext s
    match r with
    | none =>
      let (it, s2) := lexEmit .itemEOF s1
      ({ s2 with fn := .halted }, [it])
    | some c =>
      if isAlphaNumericUnderscore c then ({ lexBackup s1 with fn := .lexVariable }, [])
      else ({ s1 with fn := .lexNewline }, [])
  | .lexVariable =>
    let (r, s1) := lexNext s
    match r with
    | some c =>
      if isAlphaNumericUnderscore c then ({ s1 with fn := .lexVariable }, [])
      else if c = '=' then
        let s2 := lexBackup s1
        match variablesMap (lexText s2) with
        | some t =>
          let (it, s3) := lexEmit t s2
          let (_, s4) := lexNext s3
          ({ lexIgnore s4 with fn := .lexValueType }, [it])
        | none => ({ s2 with fn := .lexNewline }, [])
      else if c = ' ' || c = '(' then ({ s1 with fn := .lexNewline }, [])
      else
        ({ s1 with fn := .halted }, [⟨.itemError, s1.start, "invalid valriable or function".toList⟩])
    | none =>
      ({ s1 with fn := .halted }, [⟨.itemError, s1.start, "invalid valriable or function".toList⟩])
  | .lexValueType =>
    let (r, s1) := lexNext s
    match r with
    | some '(' => ({ s1 with fn := .lexArrayStart }, [])
    | some '\'' => ({ lexIgnore s1 with fn := .lexValue }, [])
    | some _ => ({ lexBackup s1 with fn := .lexValue }, [])
    | none => ({ lexBackup s1 with fn := .lexValue }, [])
  | .lexValue =>
    let (r, s1) := lexNext s
    match r with
    | none =>
      let (it, s2) := lexEmit .itemValue (lexBackup s1)
      ({ s2 with fn := .lexNewline }, [it])
    | some '\n' =>
      let (it, s2) := lexEmit .itemValue (lexBackup s1)
      ({ s2 with fn := .lexNewline }, [it])
    | some '\'' =>
      let (p, s2) := lexPeek s1
      if p = some '\n' then
        let (it, s3) := lexEmit .itemValue (lexBackup s2)
        ({ s3 with fn := .lexNewline }, [it])
      else ({ s2 with fn := .lexValue }, [])
    | some _ => ({ s1 with fn := .lexValue }, [])
  | .lexArrayValue =>
    let (r, s1) := lexNext s
    match r with
    | some '"' =>
      if s1.input.getD (s1.pos - 2) ' ' ≠ '\\' then
        let (it, s2) := lexEmit .itemArrayValue (lexBackup s1)
        let (_, s3) := lexNext s2
        ({ s3 with fn := .lexArrayStart }, [it])
      else ({ s1 with fn := .lexArrayValue }, [])
    | some _ => ({ s1 with fn := .lexArrayValue }, [])
    | none => ({ s1 with fn := .lexArrayValue }, [])
  | .lexArrayStart =>
    let (p, s1) := lexPeek s
    if p = some ' ' then
      let (_, s2) := lexNext s1
      ({ s2 with fn := .lexArrayLoop }, [])
    else ({ s1 with fn := .lexArrayLoop }, [])
  | .lexArrayLoop =>
    let (r, s1) := lexNext s
    match r with
    | some '"' => ({ lexIgnore s1 with fn := .lexArrayValue }, [])
    | some ')' =>
      let (it, s2) := lexEmit .itemArrayEnd s1
      ({ lexIgnore s2 with fn := .lexNewline }, [it])
    | some _ => ({ lexIgnore s1 with fn := .lexArrayLoop }, [])
    | none => ({ lexIgnore s1 with fn := .lexArrayLoop }, [])
  | .lexNewline =>
    let (r, s1) := lexNext s
    match r with
    | some '\n' => ({ lexIgnore s1 with fn := .lexEnv }, [])
    | none => ({ lexBackup s1 with fn := .lexEnv }, [])
    | some _ => ({ lexIgnore s1 with fn := .lexNewline }, [])

/-- lex.go `lex`: the initial state on an input. -/
def lexInit (input : List Char) : LexState :=
  { input := input, pos := 0, start := 0, width := 0, fn := .lexEnv }

/-- Iterate `lexStep` on fuel, collecting emitted items in order. -/
def lexRun : Nat → LexState → List Item × LexState
  | 0, s => ([], s)
  | n + 1, s =>
    let (s', its) := lexStep s
    let (rest, sf) := lexRun n s'
    (its ++ rest, sf)

/-! ## The SRCINFO record builder (pkgbuild.go `parse`, `parsePKGBUILD`)

The Go loop reads one token; for field tokens it reads a second token (the
value) and runs the case body.  The accumulator `pkgbuild` is a pointer that
is nil until the first pkgbase token: a case body touching the nil pointer
is the `nilPanic` outcome.  Reading from the exhausted token stream (the Go
channel would block forever) is `blocked`. -/

inductive ParseOutcome where
  | ok (acc : Option PKGBUILD)
  | err (msg : List Char)
  | nilPanic
  | idxPanic
  | blocked
deriving DecidableEq, Repr

/-- The result of one value-consuming switch case: continue the loop with an
updated accumulator, or stop with a final outcome. -/
inductive CaseRes where
  | cont (acc : Option PKGBUILD)
  | stop (o : ParseOutcome)
deriving DecidableEq, Repr

/-- The body of one value-consuming case of pkgbuild.go `parse`'s switch,
given the case's token kind, the value token's text and the accumulator.
Each arm preserves the Go statement order: error returns computed before
the accumulator is touched fire before the nil dereference. -/
def caseOf (typ : ItemType) (v : List Char) (acc : Option PKGBUILD) : CaseRes :=
  match typ with
  | .itemPkgbase => .cont (some { emptyPKGBUILD with Epoch := 0, Pkgbase := v })
  | .itemPkgname =>
    match acc with
    | none => .stop .nilPanic
    | some p => .cont (some { p with Pkgnames := p.Pkgnames ++ [v] })
  | .itemPkgver =>
    if validPkgver v then
      match acc with
      | none => .stop .nilPanic
      | some p => .cont (some { p with Pkgver := v })
    else .stop (.err ("invalid version string: ".toList ++ v))
  | .itemPkgrel =>
    match goAtoi v with
    | none => .stop (.err "strconv.ParseInt: invalid syntax".toList)
    | some rel =>
      match acc with
      | none => .stop .nilPanic
      | some p => .cont (some { p with Pkgrel := rel })
  | .itemPkgdir =>
    match acc with
    | none => .stop .nilPanic
    | some p => .cont (some { p with Pkgdir := v })
  | .itemEpoch =>
    match goAtoi v with
    | none => .stop (.err "strconv.ParseInt: invalid syntax".toList)
    | some epoch =>
      if epoch < 0 then .stop (.err "invalid epoch".toList)
      else
        match acc with
        | none => .stop .nilPanic
        | some p => .cont (some { p with Epoch := epoch })
  | .itemPkgdesc =>
    match acc with
    | none => .stop .nilPanic
    | some p => .cont (some { p with Pkgdesc := v })
  | .itemArch =>
    match archs v with
    | some arch =>
      match acc with
      | none => .stop .nilPanic
      | some p => .cont (some { p with Arch := p.Arch ++ [arch] })
    | none => .stop (.err ("invalid Arch: ".toList ++ v))
  | .itemURL =>
    match acc with
    | none => .stop .nilPanic
    | some p => .cont (some { p with URL := v })
  | .itemLicense =>
    match acc with
    | none => .stop .nilPanic
    | some p => .cont (some { p with License := p.License ++ [v] })
  | .itemGroups =>
    match acc with
    | none => .stop .nilPanic
    | some p => .cont (some { p with Groups := p.Groups ++ [v] })
  | .itemDepends =>
    match acc with
    | none => .stop .nilPanic
    | some p =>
      match parseDependency v p.Depends with
      | .idxPanic => .stop .idxPanic
      | .err m => .stop (.err m)
      | .ok deps => .cont (some { p with Depends := deps })
  | .itemOptdepends =>
    match acc with
    | none => .stop .nilPanic
    | some p => .cont (some { p with Optdepends := p.Optdepends ++ [v] })
  | .itemMakedepends =>
    match acc with
    | none => .stop .nilPanic
    | some p => .cont (some { p with Makedepends := p.Makedepends ++ [v] })
  | .itemCheckdepends =>
    match acc with
    | none => .stop .nilPanic
    | some p => .cont (some { p with Checkdepends := p.Checkdepends ++ [v] })
  | .itemProvides =>
    match acc with
    | none => .stop .nilPanic
    | some p => .cont (some { p with Provides := p.Provides ++ [v] })
  | .itemConflicts =>
    match acc with
    | none => .stop .nilPanic
    | some p => .cont (some { p with Conflicts := p.Conflicts ++ [v] })
  | .itemReplaces =>
    match acc with
    | none => .stop .nilPanic
    | some p => .cont (some { p with Replaces := p.Replaces ++ [v] })
  | .itemBackup =>
    match acc with
    | none => .stop .nilPanic
    | some p => .cont (some { p with Backup := p.Backup ++ [v] })
  | .itemOptions =>
    match acc with
    | none => .stop .nilPanic
    | some p => .cont (some { p with Options := p.Options ++ [v] })
  | .itemInstall =>
    match acc with
    | none => .stop .nilPanic
    | some p => .cont (some { p with Install := v })
  | .itemChangelog =>
    match acc with
    | none => .stop .nilPanic
    | some p => .cont (some { p with Changelog := v })
  | .itemSource =>
    match acc with
    | none => .stop .nilPanic
    | some p => .cont (some { p with Source := p.Source ++ [v] })
  | .itemNoextract =>
    match acc with
    | none => .stop .nilPanic
    | some p => .cont (some { p with Noextract := p.Noextract ++ [v] })
  | .itemMd5sums =>
    match acc with
    | none => .stop .nilPanic
    | some p => .cont (some { p with Md5sums := p.Md5sums ++ [v] })
  | .itemSha1sums =>
    match acc with
    | none => .stop .nilPanic
    | some p => .cont (some { p with Sha1sums := p.Sha1sums ++ [v] })
  | .itemSha224sums =>
    match acc with
    | none => .stop .nilPanic
    | some p => .cont (some { p with Sha224sums := p.Sha224sums ++ [v] })
  | .itemSha256sums =>
    match acc with
    | none => .stop .nilPanic
    | some p => .cont (some { p with Sha256sums := p.Sha256sums ++ [v] })
  | .itemSha384sums =>
    match acc with
    | none => .stop .nilPanic
    | some p => .cont (some { p with Sha384sums := p.Sha384sums ++ [v] })
  | .itemSha512sums =>
    match acc with
    | none => .stop .nilPanic
    | some p => .cont (some { p with Sha512sums := p.Sha512sums ++ [v] })
  | .itemValidpgpkeys =>
    match acc with
    | none => .stop .nilPanic
    | some p => .cont (some { p with Validpgpkeys := p.Validpgpkeys ++ [v] })
  | _ => .stop (.err "unreachable".toList)

/-- pkgbuild.go `parse`'s loop over the token stream.  `itemEndSplit` is a
no-op, `itemError` returns the token's message as the error, `itemEOF`
returns the accumulator, the value-kind tokens hit the switch's default and
are returned as errors, and every other kind fetches the next token as its
value and runs `caseOf`. -/
def parseLoop : Option PKGBUILD → List Item → ParseOutcome
  | _, [] => .blocked
  | acc, tok :: rest =>
    match tok.typ with
    | .itemEndSplit => parseLoop acc rest
    | .itemError => .err tok.val
    | .itemEOF => .ok acc
    | .itemVariable => .err tok.val
    | .itemValue => .err tok.val
    | .itemArrayValue => .err tok.val
    | .itemArrayEnd => .err tok.val
    | typ =>
      match rest with
      | [] => .blocked
      | next :: rest' =>
        match caseOf typ next.val acc with
        | .cont acc' => parseLoop acc' rest'
        | .stop o => o

/-- pkgbuild.go `parse` on a token stream: the loop started with the nil
accumulator. -/
def parseItems (s : List Item) : ParseOutcome := parseLoop none s

/-- The outcome of pkgbuild.go `parsePKGBUILD`: one record or an error. -/
inductive PkgbResult where
  | ok (p : PKGBUILD)
  | err (msg : List Char)
  | nilPanic
  | idxPanic
  | blocked
deriving DecidableEq, Repr

/-- pkgbuild.go `parsePKGBUILD` from a token stream: run the builder, then
validate pkgver, a non-empty arch list, a non-empty pkgname list and each
pkgname in order.  When the builder hands back its nil accumulator (an input
with no pkgbase and no field token), `validPkgver(string(pkgb.Pkgver))`
dereferences the nil pointer. -/
def parsePKGBUILDItems (s : List Item) : PkgbResult :=
  match parseItems s with
  | .err m => .err m
  | .nilPanic => .nilPanic
  | .idxPanic => .idxPanic
  | .blocked => .blocked
  | .ok none => .nilPanic
  | .ok (some p) =>
    if !validPkgver p.Pkgver then .err ("invalid pkgver: ".toList ++ p.Pkgver)
    else if p.Arch.length = 0 then .err "Arch missing".toList
    else if p.Pkgnames.length = 0 then .err "missing pkgname".toList
    else
      match p.Pkgnames.find? (fun name => !validPkgname name) with
      | some name => .err ("invalid pkgname: ".toList ++ name)
      | none => .ok p

/-! ## The sourced-PKGBUILD builder (the older pkgbuild.go revision in the
sources: `parse`, `parseValue`, `parseArrayValues`, `parseArchs`)

This revision's record has a single scalar `Pkgname` and plain string
dependency lists; its `parse` initializes the accumulator up front, so there
is no nil pointer.  Its helpers pull tokens themselves; here they consume a
prefix of the token list and return the remainder, with `none` for a read
from the exhausted stream. -/

/-- The older pkgbuild.go revision's `PKGBUILD` struct. -/
structure PKGBUILDSourced where
  Pkgname : List Char
  Pkgver : Version
  Pkgrel : Int
  Pkgdir : List Char
  Epoch : Int
  Pkgbase : List Char
  Pkgdesc : List Char
  Arch : List Arch
  URL : List Char
  License : List (List Char)
  Groups : List (List Char)
  Depends : List (List Char)
  Optdepends : List (List Char)
  Makedepends : List (List Char)
  Checkdepends : List (List Char)
  Provides : List (List Char)
  Conflicts : List (List Char)
  Replaces : List (List Char)
  Backup : List (List Char)
  Options : List (List Char)
  Install : List Char
  Changelog : List Char
  Source : List (List Char)
  Noextract : List (List Char)
  Md5sums : List (List Char)
  Sha1sums : List (List Char)
  Sha224sums : List (List Char)
  Sha256sums : List (List Char)
  Sha384sums : List (List Char)
  Sha512sums : List (List Char)
  Validpgpkeys : List (List Char)
deriving DecidableEq, Repr

/-- The zero value `&PKGBUILD{Epoch: 0}` of the older revision. -/
def emptySourced : PKGBUILDSourced :=
  { Pkgname := [], Pkgver := [], Pkgrel := 0, Pkgdir := [], Epoch := 0
    Pkgbase := [], Pkgdesc := [], Arch := [], URL := [], License := []
    Groups := [], Depends := [], Optdepends := [], Makedepends := []
    Checkdepends := [], Provides := [], Conflicts := [], Replaces := []
    Backup := [], Options := [], Install := [], Changelog := [], Source := []
    Noextract := [], Md5sums := [], Sha1sums := [], Sha224sums := []
    Sha256sums := [], Sha384sums := [], Sha512sums := [], Validpgpkeys := [] }

/-- pkgbuild.go `parseArrayValue`: unescape `\"` to `"`. -/
def parseArrayValue : List Char → List Char
  | '\\' :: '"' :: rest => '"' :: parseArrayValue rest
  | c :: rest => c :: parseArrayValue rest
  | [] => []

/-- `strings.Replace(value, "'\\''", "'", -1)` from `parseValue`'s scalar
case: unescape the shell-quoted single quote. -/
def replaceQuoteEsc : List Char → List Char
  | '\'' :: '\\' :: '\'' :: '\'' :: rest => '\'' :: replaceQuoteEsc rest
  | c :: rest => c :: replaceQuoteEsc rest
  | [] => []

/-- The skip loop of `parseValue`'s array case:
`for l.nextItem().typ != itemArrayEnd {}`. -/
def skipArray : List Item → Option (List Item)
  | [] => none
  | it :: rest => if it.typ = .itemArrayEnd then some rest else skipArray rest

/-- pkgbuild.go `parseValue`: a scalar token is unescaped and returned; an
array-value token is taken as the scalar and the remaining array items are
discarded up to the array terminator; any other token yields "". -/
def parseValue : List Item → Option (List Char × List Item)
  | [] => none
  | token :: rest =>
    match token.typ with
    | .itemValue => some (replaceQuoteEsc token.val, rest)
    | .itemArrayValue =>
      match skipArray rest with
      | none => none
      | some rest' => some (parseArrayValue token.val, rest')
    | _ => some ([], rest)

/-- pkgbuild.go `parseArrayValues`: collect unescaped array-value tokens up
to the array terminator, ignoring other token kinds. -/
def parseArrayValues : List Item → Option (List (List Char) × List Item)
  | [] => none
  | next :: rest =>
    match next.typ with
    | .itemArrayValue =>
      match parseArrayValues rest with
      | none => none
      | some (arr, rest') => some (parseArrayValue next.val :: arr, rest')
    | .itemArrayEnd => some ([], rest)
    | _ => parseArrayValues rest

/-- Result of pkgbuild.go `parseArchs`. -/
inductive ArchsRes where
  | ok (a : List Arch) (rest : List Item)
  | err (msg : List Char)
  | blocked
deriving DecidableEq, Repr

/-- pkgbuild.go `parseArchs`: like `parseArrayValues` but each element must
be a key of the `archs` table, else an error. -/
def parseArchs : List Item → ArchsRes
  | [] => .blocked
  | next :: rest =>
    match next.typ with
    | .itemArrayValue =>
      match archs next.val with
      | some arch =>
        match parseArchs rest with
        | .ok a rest' => .ok (arch :: a) rest'
        | e => e
      | none => .err ("invalid Arch: ".toList ++ next.val)
    | .itemArrayEnd => .ok [] rest
    | _ => parseArchs rest

/-- Outcome of the older revision's `parse`. -/
inductive SourcedOutcome where
  | ok (p : PKGBUILDSourced)
  | err (msg : List Char)
  | blocked
deriving DecidableEq, Repr

theorem skipArray_len {s r : List Item} (h : skipArray s = some r) :
    r.length < s.length := by
  induction s with
  | nil => simp [skipArray] at h
  | cons it rest ih =>
    simp only [skipArray] at h
    split at h
    · cases h; simp
    · exact Nat.lt_succ_of_lt (ih h)

theorem parseValue_len {s : List Item} {v : List Char} {r : List Item}
    (h : parseValue s = some (v, r)) : r.length < s.length := by
  match s with
  | [] => simp [parseValue] at h
  | token :: rest =>
    simp only [parseValue] at h
    split at h
    · cases h; simp
    · rcases hs : skipArray rest with _ | r'
      · rw [hs] at h; cases h
      · rw [hs] at h; cases h
        exact Nat.lt_succ_of_lt (skipArray_len hs)
    · cases h; simp

theorem parseArrayValues_len {s : List Item} {vs : List (List Char)} {r : List Item}
    (h : parseArrayValues s = some (vs, r)) : r.length < s.length := by
  induction s generalizing vs with
  | nil => simp [parseArrayValues] at h
  | cons next rest ih =>
    simp only [parseArrayValues] at h
    split at h
    · rcases hs : parseArrayValues rest with _ | ⟨arr, r'⟩
      · rw [hs] at h; cases h
      · rw [hs] at h; cases h
        exact Nat.lt_succ_of_lt (ih hs)
    · cases h; simp
    · exact Nat.lt_succ_of_lt (ih h)

theorem parseArchs_len {s : List Item} {a : List Arch} {r : List Item}
    (h : parseArchs s = .ok a r) : r.length < s.length := by
  induction s generalizing a with
  | nil => simp [parseArchs] at h
  | cons next rest ih =>
    simp only [parseArchs] at h
    split at h
    · split at h
      · rcases hs : parseArchs rest with ⟨a', r'⟩ | m | _
        · rw [hs] at h; cases h
          exact Nat.lt_succ_of_lt (ih hs)
        · rw [hs] at h; cases h
        · rw [hs] at h; cases h
      · cases h
    · cases h; simp
    · exact Nat.lt_succ_of_lt (ih h)

/-- The older pkgbuild.go revision's `parse` loop: the switch dispatches on
the token kind; scalar fields go through `parseValue`, list fields through
`parseArrayValues`, architectures through `parseArchs`.  This revision's
switch has no default case, so unhandled token kinds simply continue the
loop. -/
def parseSourcedLoop (p : PKGBUILDSourced) : List Item → SourcedOutcome
  | [] => .blocked
  | token :: rest =>
    match token.typ with
    | .itemPkgname =>
      match h : parseValue rest with
      | none => .blocked
      | some (v, r) => parseSourcedLoop { p with Pkgname := v } r
    | .itemPkgver =>
      match rest with
      | [] => .blocked
      | next :: r =>
        if validPkgver next.val then parseSourcedLoop { p with Pkgver := next.val } r
        else .err ("invalid version string: ".toList ++ next.val)
    | .itemPkgrel =>
      match rest with
      | [] => .blocked
      | next :: r =>
        match goAtoi next.val with
        | none => .err "strconv.ParseInt: invalid syntax".toList
        | some rel => parseSourcedLoop { p with Pkgrel := rel } r
    | .itemPkgdir =>
      match h : parseValue rest with
      | none => .blocked
      | some (v, r) => parseSourcedLoop { p with Pkgdir := v } r
    | .itemEpoch =>
      match rest with
      | [] => .blocked
      | next :: r =>
        match goAtoi next.val with
        | none => .err "strconv.ParseInt: invalid syntax".toList
        | some epoch =>
          if epoch < 0 then .err "invalid epoch".toList
          else parseSourcedLoop { p with Epoch := epoch } r
    | .itemPkgbase =>
      match h : parseValue rest with
      | none => .blocked
      | some (v, r) => parseSourcedLoop { p with Pkgbase := v } r
    | .itemPkgdesc =>
      match h : parseValue rest with
      | none => .blocked
      | some (v, r) => parseSourcedLoop { p with Pkgdesc := v } r
    | .itemArch =>
      match h : parseArchs rest with
      | .err m => .err m
      | .blocked => .blocked
      | .ok val r => parseSourcedLoop { p with Arch := val } r
    | .itemURL =>
      match h : parseValue rest with
      | none => .blocked
      | some (v, r) => parseSourcedLoop { p with URL := v } r
    | .itemLicense =>
      match h : parseArrayValues rest with
      | none => .blocked
      | some (vs, r) => parseSourcedLoop { p with License := vs } r
    | .itemGroups =>
      match h : parseArrayValues rest with
      | none => .blocked
      | some (vs, r) => parseSourcedLoop { p with Groups := vs } r
    | .itemDepends =>
      match h : parseArrayValues rest with
      | none => .blocked
      | some (vs, r) => parseSourcedLoop { p with Depends := vs } r
    | .itemOptdepends =>
      match h : parseArrayValues rest with
      | none => .blocked
      | some (vs, r) => parseSourcedLoop { p with Optdepends := vs } r
    | .itemMakedepends =>
      match h : parseArrayValues rest with
      | none => .blocked
      | some (vs, r) => parseSourcedLoop { p with Makedepends := vs } r
    | .itemCheckdepends =>
      match h : parseArrayValues rest with
      | none => .blocked
      | some (vs, r) => parseSourcedLoop { p with Checkdepends := vs } r
    | .itemProvides =>
      match h : parseArrayValues rest with
      | none => .blocked
      | some (vs, r) => parseSourcedLoop { p with Provides := vs } r
    | .itemConflicts =>
      match h : parseArrayValues rest with
      | none => .blocked
      | some (vs, r) => parseSourcedLoop { p with Conflicts := vs } r
    | .itemReplaces =>
      match h : parseArrayValues rest with
      | none => .blocked
      | some (vs, r) => parseSourcedLoop { p with Replaces := vs } r
    | .itemBackup =>
      match h : parseArrayValues rest with
      | none => .blocked
      | some (vs, r) => parseSourcedLoop { p with Backup := vs } r
    | .itemOptions =>
      match h : parseArrayValues rest with
      | none => .blocked
      | some (vs, r) => parseSourcedLoop { p with Options := vs } r
    | .itemInstall =>
      match h : parseValue rest with
      | none => .blocked
      | some (v, r) => parseSourcedLoop { p with Install := v } r
    | .itemChangelog =>
      match h : parseValue rest with
      | none => .blocked
      | some (v, r) => parseSourcedLoop { p with Changelog := v } r
    | .itemSource =>
      match h : parseArrayValues rest with
      | none => .blocked
      | some (vs, r) => parseSourcedLoop { p with Source := vs } r
    | .itemNoextract =>
      match h : parseArrayValues rest with
      | none => .blocked
      | some (vs, r) => parseSourcedLoop { p with Noextract := vs } r
    | .itemMd5sums =>
      match h : parseArrayValues rest with
      | none => .blocked
      | some (vs, r) => parseSourcedLoop { p with Md5sums := vs } r
    | .itemSha1sums =>
      match h : parseArrayValues rest with
      | none => .blocked
      | some (vs, r) => parseSourcedLoop { p with Sha1sums := vs } r
    | .itemSha224sums =>
      match h : parseArrayValues rest with
      | none => .blocked
      | some (vs, r) => parseSourcedLoop { p with Sha224sums := vs } r
    | .itemSha256sums =>
      match h : parseArrayValues rest with
      | none => .blocked
      | some (vs, r) => parseSourcedLoop { p with Sha256sums := vs } r
    | .itemSha384sums =>
      match h : parseArrayValues rest with
      | none => .blocked
      | some (vs, r) => parseSourcedLoop { p with Sha384sums := vs } r
    | .itemSha512sums =>
      match h : parseArrayValues rest with
      | none => .blocked
      | some (vs, r) => parseSourcedLoop { p with Sha512sums := vs } r
    | .itemValidpgpkeys =>
      match h : parseArrayValues rest with
      | none => .blocked
      | some (vs, r) => parseSourcedLoop { p with Validpgpkeys := vs } r
    | .itemEOF => .ok p
    | .itemError => .err token.val
    | _ => parseSourcedLoop p rest
termination_by s => s.length
decreasing_by
  all_goals simp only [List.length_cons]
  all_goals first
    | omega
    | (have hlt := parseValue_len h; omega)
    | (have hlt := parseArrayValues_len h; omega)
    | (have hlt := parseArchs_len h; omega)

/-- The older pkgbuild.go revision's `parse` on a token stream. -/
def parseSourcedItems (s : List Item) : SourcedOutcome :=
  parseSourcedLoop { emptySourced with Epoch := 0 } s

/-! ## Helper lemmas -/

theorem caseOf_cont_some {typ : ItemType} {v : List Char} {p : PKGBUILD}
    {acc : Option PKGBUILD} (h : caseOf typ v (some p) = .cont acc) :
    ∃ q, acc = some q := by
  cases typ <;> simp only [caseOf] at h <;> (try split at h) <;> (try split at h) <;>
    first
      | (cases h; exact ⟨_, rfl⟩)
      | simp at h

theorem caseOf_stop_shape {typ : ItemType} {v : List Char} {p : PKGBUILD}
    {o : ParseOutcome} (h : caseOf typ v (some p) = .stop o) :
    (∃ m, o = ParseOutcome.err m) ∨ o = ParseOutcome.idxPanic := by
  cases typ <;> simp only [caseOf] at h <;> (try split at h) <;> (try split at h) <;>
    first
      | (cases h; exact Or.inl ⟨_, rfl⟩)
      | (cases h; exact Or.inr rfl)
      | simp at h

theorem parseLoop_some_shape_aux : ∀ (n : Nat) (l : List Item) (p : PKGBUILD),
    l.length ≤ n →
    (parseLoop (some p) l = ParseOutcome.blocked
      ∨ (∃ q, parseLoop (some p) l = ParseOutcome.ok (some q))
      ∨ (∃ m, parseLoop (some p) l = ParseOutcome.err m)
      ∨ parseLoop (some p) l = ParseOutcome.idxPanic) := by
  intro n
  induction n with
  | zero =>
    intro l p hl
    have : l = [] := List.length_eq_zero.mp (Nat.le_zero.mp hl)
    subst this
    exact Or.inl rfl
  | succ n ih =>
    intro l p hl
    match l with
    | [] => exact Or.inl rfl
    | tok :: rest =>
      simp only [List.length_cons, Nat.succ_le_succ_iff] at hl
      simp only [parseLoop]
      split <;>
        first
          | exact ih rest p hl
          | exact Or.inl rfl
          | exact Or.inr (Or.inl ⟨_, rfl⟩)
          | exact Or.inr (Or.inr (Or.inl ⟨_, rfl⟩))
          | exact Or.inr (Or.inr (Or.inr rfl))
          | (split <;>
               first
                 | exact Or.inl rfl
                 | (split <;>
                      first
                        | (rename_i acc' heq
                           obtain ⟨q, hq⟩ := caseOf_cont_some heq
                           subst hq
                           refine ih _ q ?_
                           simp only [List.length_cons] at hl
                           omega)
                        | (rename_i o heq
                           rcases caseOf_stop_shape heq with ⟨m, rfl⟩ | rfl
                           · exact Or.inr (Or.inr (Or.inl ⟨m, rfl⟩))
                           · exact Or.inr (Or.inr (Or.inr rfl)))))

theorem parseLoop_some_shape (l : List Item) (p : PKGBUILD) :
    parseLoop (some p) l = ParseOutcome.blocked
      ∨ (∃ q, parseLoop (some p) l = ParseOutcome.ok (some q))
      ∨ (∃ m, parseLoop (some p) l = ParseOutcome.err m)
      ∨ parseLoop (some p) l = ParseOutcome.idxPanic :=
  parseLoop_some_shape_aux l.length l p (le_refl _)

theorem lexRun_add (m k : Nat) (s : LexState) :
    lexRun (m + k) s =
      ((lexRun m s).1 ++ (lexRun k (lexRun m s).2).1, (lexRun k (lexRun m s).2).2) := by
  induction m generalizing s with
  | zero => simp [lexRun]
  | succ m ih =>
    have hm : m + 1 + k = (m + k) + 1 := by omega
    rw [hm]
    simp only [lexRun]
    rw [ih (lexStep s).1]
    simp [List.append_assoc]

theorem lexRun_fix {s : LexState} (h : lexStep s = (s, [])) (n : Nat) :
    lexRun n s = ([], s) := by
  induction n with
  | zero => rfl
  | succ n ih => simp [lexRun, h, ih]

theorem skipArray_past {elems : List Item} {endIt : Item} {rest : List Item}
    (hend : endIt.typ = .itemArrayEnd)
    (h : (elems.all fun e => e.typ != ItemType.itemArrayEnd) = true) :
    skipArray (elems ++ endIt :: rest) = some rest := by
  induction elems with
  | nil => simp [skipArray, hend]
  | cons e es ih =>
    simp only [List.all_cons, Bool.and_eq_true, bne_iff_ne, ne_eq] at h
    simp only [List.cons_append, skipArray]
    rw [if_neg h.1]
    exact ih h.2

/-! ## Concrete inputs and records used by the claim theorems -/

/-- Epoch 1, pkgver 1.0, pkgrel 1. -/
def pkgbEpoch1Ver1 : PKGBUILD :=
  { emptyPKGBUILD with Epoch := 1, Pkgver := "1.0".toList, Pkgrel := 1 }

/-- Epoch 0, pkgver 2.0, pkgrel 1. -/
def pkgbEpoch0Ver2 : PKGBUILD :=
  { emptyPKGBUILD with Epoch := 0, Pkgver := "2.0".toList, Pkgrel := 1 }

/-- Epoch 0, pkgver 1.0, pkgrel 1. -/
def pkgbEpoch0Ver1 : PKGBUILD :=
  { emptyPKGBUILD with Epoch := 0, Pkgver := "1.0".toList, Pkgrel := 1 }

/-- An array assignment whose element's opening quote is never closed. -/
def c6input : List Char := "source=([0]=\"abc".toList

/-- The state the lexer is stuck in on `c6input`: `lexArrayValue` with the
read position at end of input. -/
def c6stuck : LexState := ⟨c6input, 16, 13, 0, .lexArrayValue⟩

/-- A well-formed token stream: pkgbase foo, pkgname foo, pkgver 1.0,
arch any. -/
def c9Stream : List Item :=
  [⟨.itemPkgbase, 0, "pkgbase".toList⟩, ⟨.itemValue, 0, "foo".toList⟩,
   ⟨.itemPkgname, 0, []⟩, ⟨.itemValue, 0, "foo".toList⟩,
   ⟨.itemPkgver, 0, []⟩, ⟨.itemValue, 0, "1.0".toList⟩,
   ⟨.itemArch, 0, []⟩, ⟨.itemValue, 0, "any".toList⟩,
   ⟨.itemEOF, 0, []⟩]

/-- The record built from `c9Stream`. -/
def c9Record : PKGBUILD :=
  { emptyPKGBUILD with
    Pkgbase := "foo".toList,
    Pkgnames := ["foo".toList],
    Pkgver := "1.0".toList,
    Arch := [.Any] }

/-- A scalar-valued field assigned with array syntax. -/
def c10input : List Char := "pkgdesc=([0]=\"value1\" [1]=\"value2\")".toList

/-! ## The claims -/

/-- C1: the claim says that when epochs differ the epoch alone decides
`Newer`/`Older`.  The code only short-circuits on `p.Epoch < p2.Epoch`; with
the larger epoch on p's side the pkgver comparison decides instead:
for p = 1:1.0-1 and p2 = 0:2.0-1 we have p.Epoch > p2.Epoch, yet
`p.Newer(p2)` is false and `p.Older(p2)` is true.  (The pkgver comparison
`Version.bigger` is modelled from the spec, but any reading agrees that
1.0 < 2.0.) -/
theorem c1_epoch_not_decisive :
    pkgbEpoch1Ver1.Epoch > pkgbEpoch0Ver2.Epoch
    ∧ pkgbEpoch1Ver1.Newer pkgbEpoch0Ver2 = false
    ∧ pkgbEpoch1Ver1.Older pkgbEpoch0Ver2 = true := by
  refine ⟨by decide, by decide, by decide⟩

/-- C2: the claim says the parsed operator sets the bounds (`>=` an
inclusive min, `<` a strict max, ...).  The operator-scan loop's condition
`c != '<' || c != '>' || c != '='` holds for every character, so the scan
always breaks on its first iteration with an empty operator and one
operator character skipped: `a>=2` parses "successfully" but leaves both
bounds unset, and `a<2` (one-character operator) fails with a version
format error because the version text seen is the empty string; the
repository's own test input `linux-mainline-headers<4.6rc1` fails the same
way. -/
theorem c2_operator_scan_tautology :
    parseDependency "a>=2".toList [] =
      .ok [{ Name := "a".toList, MinVer := none, sgt := false
             MaxVer := none, slt := false }]
    ∧ parseDependency "a<2".toList [] = .err "invalid version format: ".toList
    ∧ parseDependency "linux-mainline-headers<4.6rc1".toList [] =
        .err "invalid version format: .6rc1".toList := by
  refine ⟨by decide, by decide, by decide⟩

/-- C3 (counterexample): a field token before any pkgbase token makes the
record builder dereference its nil accumulator — a crash, not a returned
record list or parse error. -/
theorem c3_field_before_pkgbase_panics :
    parseItems [⟨.itemPkgname, 0, []⟩, ⟨.itemValue, 0, "foo".toList⟩,
      ⟨.itemEOF, 0, []⟩] = ParseOutcome.nilPanic := by
  decide

/-- C3 (amended): on every token stream that begins with a pkgbase token the
record builder never dereferences the nil accumulator: it yields a record,
a parse error, a blocked read of a truncated stream, or the index panic of
`parseDependency` on an empty dependency value — and that last case is
real: the stream of `pkgbase=b` followed by `depends=` with an empty value
ends in the index panic. -/
theorem c3_pkgbase_first_outcomes :
    (∀ (pos : Nat) (val : List Char) (rest : List Item),
      parseItems (⟨.itemPkgbase, pos, val⟩ :: rest) = ParseOutcome.blocked
        ∨ (∃ q, parseItems (⟨.itemPkgbase, pos, val⟩ :: rest) = ParseOutcome.ok (some q))
        ∨ (∃ m, parseItems (⟨.itemPkgbase, pos, val⟩ :: rest) = ParseOutcome.err m)
        ∨ parseItems (⟨.itemPkgbase, pos, val⟩ :: rest) = ParseOutcome.idxPanic)
    ∧ parseItems [⟨.itemPkgbase, 0, []⟩, ⟨.itemValue, 0, "b".toList⟩,
        ⟨.itemDepends, 0, []⟩, ⟨.itemValue, 0, []⟩, ⟨.itemEOF, 0, []⟩] =
        ParseOutcome.idxPanic := by
  constructor
  · intro pos val rest
    unfold parseItems
    simp only [parseLoop]
    cases rest with
    | nil => exact Or.inl rfl
    | cons next rest' =>
      simp only [caseOf]
      exact parseLoop_some_shape rest' _
  · decide

/-- C4: the claim says all six architecture literals map to their constants.
The lookup table contains only four entries: `armv5` and `armv6h` — despite
their declared constants `ARMv5` and `ARMv6h` — are absent and are rejected
by the builder as an invalid Arch. -/
theorem c4_archs_table_incomplete :
    archs "armv5".toList = none
    ∧ archs "armv6h".toList = none
    ∧ archs "any".toList = some .Any
    ∧ archs "i686".toList = some .I686
    ∧ archs "x86_64".toList = some .X8664
    ∧ archs "armv7h".toList = some .ARMv7h
    ∧ parseItems [⟨.itemPkgbase, 0, []⟩, ⟨.itemValue, 0, "foo".toList⟩,
        ⟨.itemArch, 0, []⟩, ⟨.itemValue, 0, "armv5".toList⟩, ⟨.itemEOF, 0, []⟩] =
        ParseOutcome.err "invalid Arch: armv5".toList := by
  refine ⟨by decide, by decide, by decide, by decide, by decide, by decide, by decide⟩

/-- C5: the claim says every documented key — sha224sums and validpgpkeys
included — is recognized by the tokenizer.  The lexer's `variables` table
has no entry for either, so an assignment to them is skipped with no token:
tokenizing `sha224sums=abc` emits only the end-of-input marker. -/
theorem c5_lexer_skips_sha224sums_validpgpkeys :
    variablesMap "sha224sums".toList = none
    ∧ variablesMap "validpgpkeys".toList = none
    ∧ variablesMap "sha256sums".toList = some .itemSha256sums
    ∧ variablesMap "md5sums".toList = some .itemMd5sums
    ∧ (lexRun 25 (lexInit "sha224sums=abc".toList)).1 = [⟨.itemEOF, 14, []⟩]
    ∧ (lexRun 25 (lexInit "validpgpkeys=abc".toList)).1 = [⟨.itemEOF, 16, []⟩] := by
  refine ⟨by decide, by decide, by decide, by decide, by decide, by decide⟩

/-- C6: the claim says tokenization always terminates and an unterminated
array element yields a TokenizeError.  On `source=([0]="abc` the lexer
reaches `lexArrayValue` at end of input, where the `eof` value falls into
the absorbing default branch: the state is a fixed point of `lexStep`, so
however much fuel is spent the token stream contains no error token and no
end-of-input token — the Go loop spins forever and never reports. -/
theorem c6_unterminated_array_never_errors :
    (∀ fuel : Nat,
      ((lexRun fuel (lexInit c6input)).1.all
        (fun it => it.typ != ItemType.itemError && it.typ != ItemType.itemEOF)) = true)
    ∧ (∀ k : Nat, lexRun (20 + k) (lexInit c6input) = lexRun 20 (lexInit c6input)) := by
  have h20 : lexRun 20 (lexInit c6input) =
      ([⟨.itemSource, 0, "source".toList⟩], c6stuck) := by decide
  have hfix : lexStep c6stuck = (c6stuck, []) := by decide
  constructor
  · intro fuel
    rcases Nat.le_total fuel 20 with hle | hge
    · have hsplit := lexRun_add fuel (20 - fuel) (lexInit c6input)
      rw [Nat.add_sub_cancel' hle, h20] at hsplit
      have happ : (lexRun fuel (lexInit c6input)).1 ++
          (lexRun (20 - fuel) (lexRun fuel (lexInit c6input)).2).1 =
          [⟨.itemSource, 0, "source".toList⟩] := (congrArg Prod.fst hsplit).symm
      have hall : (((lexRun fuel (lexInit c6input)).1 ++
          (lexRun (20 - fuel) (lexRun fuel (lexInit c6input)).2).1).all
            (fun it => it.typ != ItemType.itemError && it.typ != ItemType.itemEOF)) = true := by
        rw [happ]; decide
      rw [List.all_append, Bool.and_eq_true] at hall
      exact hall.1
    · obtain ⟨k, rfl⟩ : ∃ k, fuel = 20 + k := ⟨fuel - 20, by omega⟩
      rw [lexRun_add 20 k, h20]
      simp only [lexRun_fix hfix k]
      decide
  · intro k
    rw [lexRun_add 20 k, h20]
    simp only [lexRun_fix hfix k]
    simp

/-- C7: the claim says a complete version accepts a non-integer release,
e.g. `1:2-1.5`.  `parseCompleteVersion` feeds the release to
`strconv.Atoi`, so `1:2-1.5` is rejected while the integer-release
`1:2-1` parses to epoch 1, version 2, release 1. -/
theorem c7_release_must_be_integer :
    parseCompleteVersion "1:2-1.5".toList =
      .error "strconv.Atoi: invalid syntax".toList
    ∧ parseCompleteVersion "1:2-1".toList =
        .ok { Version := "2".toList, Epoch := 1, Pkgrel := 1 } := by
  refine ⟨by rfl, by rfl⟩

/-- C8: the claim says exactly one of Newer/Older/Equal holds for every
pair.  For a = 1:1.0-1 and b = 0:1.0-1 (epochs differ, pkgver and pkgrel
equal) none of the three holds: Newer does not short-circuit on the larger
epoch and falls through to the equal pkgver/pkgrel, Older likewise, and
Equal requires equal epochs. -/
theorem c8_order_not_total :
    pkgbEpoch1Ver1.Epoch ≠ pkgbEpoch0Ver1.Epoch
    ∧ pkgbEpoch1Ver1.Newer pkgbEpoch0Ver1 = false
    ∧ pkgbEpoch1Ver1.Older pkgbEpoch0Ver1 = false
    ∧ pkgbEpoch1Ver1.Equal pkgbEpoch0Ver1 = false := by
  refine ⟨by decide, by decide, by decide, by decide⟩

/-- C9 (counterexample): on a stream with no pkgbase and no field token the
builder hands back its nil record, and the validation's very first check
dereferences it — a crash, where the claim requires the
missing-pkgname validation error. -/
theorem c9_no_record_nil_deref :
    parsePKGBUILDItems [⟨.itemEOF, 0, []⟩] = PkgbResult.nilPanic := by
  decide

/-- C9 (amended): whenever the builder consumed the full stream and
produced a record, the parse returns that record exactly when the record
validations hold — pkgver matches the version charset, at least one
architecture, at least one pkgname, every pkgname matches the name charset
— and otherwise returns an error carrying no record (an unrecognized
architecture literal has already aborted the walk itself, so it cannot
reach this validation). -/
theorem c9_validation_iff (s : List Item) (p : PKGBUILD)
    (h : parseItems s = ParseOutcome.ok (some p)) :
    (parsePKGBUILDItems s = PkgbResult.ok p ↔
      (validPkgver p.Pkgver = true ∧ p.Arch ≠ [] ∧ p.Pkgnames ≠ [] ∧
        ∀ name ∈ p.Pkgnames, validPkgname name = true))
    ∧ (parsePKGBUILDItems s = PkgbResult.ok p ∨
        ∃ m, parsePKGBUILDItems s = PkgbResult.err m) := by
  unfold parsePKGBUILDItems
  rw [h]
  cases hv : validPkgver p.Pkgver with
  | false =>
    constructor
    · simp [hv]
    · exact Or.inr ⟨"invalid pkgver: ".toList ++ p.Pkgver, by simp [hv]⟩
  | true =>
    simp only [hv, Bool.not_true, Bool.false_eq_true, if_false]
    cases ha : p.Arch with
    | nil => exact ⟨by simp, Or.inr ⟨"Arch missing".toList, by simp⟩⟩
    | cons a as =>
      simp only [List.length_cons, Nat.succ_ne_zero, if_false]
      cases hn : p.Pkgnames with
      | nil => exact ⟨by simp, Or.inr ⟨"missing pkgname".toList, by simp⟩⟩
      | cons n ns =>
        simp only [List.length_cons, Nat.succ_ne_zero, if_false]
        rcases hf : (n :: ns).find? (fun name => !validPkgname name) with _ | bad
        · rw [List.find?_eq_none] at hf
          constructor
          · constructor
            · intro _
              refine ⟨by simp [hv], by simp, by simp, ?_⟩
              intro name hmem
              have := hf name hmem
              simpa using this
            · intro _
              rfl
          · exact Or.inl rfl
        · have hbad := List.find?_some hf
          have hmem := List.mem_of_find?_eq_some hf
          constructor
          · constructor
            · intro hok
              cases hok
            · rintro ⟨-, -, -, hallv⟩
              have := hallv bad hmem
              simp [this] at hbad
          · exact Or.inr ⟨_, rfl⟩

/-- C9 witness: a stream with pkgbase foo, pkgname foo, pkgver 1.0 and arch
any satisfies every validation, and the parse returns its record. -/
theorem c9_validation_iff_witness :
    parsePKGBUILDItems c9Stream = PkgbResult.ok c9Record :=
  ((c9_validation_iff c9Stream c9Record (by decide)).1).mpr
    ⟨by decide, by decide, by decide, by decide⟩

/-- C10: a scalar read of an array assignment takes exactly the first array
element's content and discards the remaining elements up to the array
terminator; in particular `pkgdesc=([0]="value1" [1]="value2")` parses to a
record whose pkgdesc is `value1`. -/
theorem c10_first_array_element_as_scalar :
    (∀ (p0 p1 : Nat) (v w : List Char) (elems rest : List Item),
      (elems.all fun e => e.typ != ItemType.itemArrayEnd) = true →
      parseValue (⟨.itemArrayValue, p0, v⟩ :: (elems ++ ⟨.itemArrayEnd, p1, w⟩ :: rest)) =
        some (parseArrayValue v, rest))
    ∧ parseSourcedItems (lexRun 80 (lexInit c10input)).1 =
        .ok { emptySourced with Pkgdesc := "value1".toList } := by
  constructor
  · intro p0 p1 v w elems rest hall
    simp only [parseValue]
    rw [skipArray_past rfl hall]
  · have hlex : (lexRun 80 (lexInit c10input)).1 =
        [⟨.itemPkgdesc, 0, "pkgdesc".toList⟩,
         ⟨.itemArrayValue, 14, "value1".toList⟩,
         ⟨.itemArrayValue, 27, "value2".toList⟩,
         ⟨.itemArrayEnd, 33, "\")".toList⟩,
         ⟨.itemEOF, 35, []⟩] := by decide
    rw [hlex]
    simp [parseSourcedItems, parseSourcedLoop, parseValue, skipArray, parseArrayValue,
      emptySourced]

/-- C10 witness: the general first-element property applied to a concrete
two-element array token stream. -/
theorem c10_first_array_element_as_scalar_witness :
    parseValue [⟨.itemArrayValue, 0, "a".toList⟩, ⟨.itemArrayValue, 1, "b".toList⟩,
      ⟨.itemArrayEnd, 2, ")".toList⟩, ⟨.itemEOF, 3, []⟩] =
      some ("a".toList, [⟨.itemEOF, 3, []⟩]) := by
  have := c10_first_array_element_as_scalar.1 0 2 "a".toList ")".toList
    [⟨.itemArrayValue, 1, "b".toList⟩] [⟨.itemEOF, 3, []⟩] (by decide)
  simpa using this
